import Mathlib

/-!
Verification of the contact-form submission-admission pipeline
(`src/directus/extensions/endpoints/contact-form/index.js`): whitelist
validation, per-client fixed-window rate limiting, honeypot detection,
HTML-tag sanitization, client-identity resolution and the POST handler's
response/side-effect behaviour.  JavaScript runtime values are embedded
shallowly as `JSValue`; strings are Lean `String`s (lists of characters),
timestamps are `Int` milliseconds, and the handler's collaborators
(ItemsService.createOne, MailService.send) are modelled by Boolean
failure oracles.
-/

namespace Lares

/-- JavaScript runtime values, as far as the pipeline inspects them:
truthiness, `typeof x === 'string'`, strict equality with a string, and
the string payload itself.  Arrays and non-array objects are opaque
(always truthy, never `===` to any string, not of string type). -/
inductive JSValue where
  | undef
  | null
  | bool (b : Bool)
  | num (n : Int)
  | str (s : String)
  | arr
  | obj
deriving DecidableEq, Repr

/-- JavaScript truthiness: `undefined`, `null`, `false`, `0` and the
empty string are falsy; everything else (arrays and objects included)
is truthy. -/
def JSValue.truthy : JSValue → Bool
  | .undef => false
  | .null => false
  | .bool b => b
  | .num n => decide (n ≠ 0)
  | .str s => decide (s ≠ "")
  | .arr => true
  | .obj => true

/-- Embeds the JavaScript check `typeof v === 'string'`. -/
def JSValue.isString : JSValue → Bool
  | .str _ => true
  | _ => false

/-- The JavaScript whitespace set: the characters matched by the regex
class `\s` and stripped by `String.prototype.trim` (ASCII whitespace,
NBSP, Ogham space, the U+2000 to U+200A range, line/paragraph
separators, narrow NBSP, medium mathematical space, ideographic space
and the BOM). -/
def isJsSpace (c : Char) : Bool :=
  let n := c.toNat
  n == 0x20 || n == 0x09 || n == 0x0A || n == 0x0B || n == 0x0C ||
  n == 0x0D || n == 0xA0 || n == 0x1680 ||
  (decide (0x2000 ≤ n) && decide (n ≤ 0x200A)) ||
  n == 0x2028 || n == 0x2029 || n == 0x202F || n == 0x205F ||
  n == 0x3000 || n == 0xFEFF

/-- Embeds `String.prototype.trim`: drop leading and trailing
JavaScript whitespace. -/
def trimChars (l : List Char) : List Char :=
  ((l.dropWhile isJsSpace).reverse.dropWhile isJsSpace).reverse

/-- ASCII letter, the regex class `[a-zA-Z]`. -/
def isAsciiLetterCh (c : Char) : Bool :=
  let n := c.toNat
  (decide (0x41 ≤ n) && decide (n ≤ 0x5A)) ||
  (decide (0x61 ≤ n) && decide (n ≤ 0x7A))

/-- ASCII digit, the regex class `\d`. -/
def isDigitCh (c : Char) : Bool :=
  let n := c.toNat
  decide (0x30 ≤ n) && decide (n ≤ 0x39)

/-- Character class of the `name` whitelist pattern
`[a-zA-ZÀ-ÿ\s'\-]`: ASCII letters, the accented-Latin code-point range
U+00C0 to U+00FF, whitespace, apostrophe (U+0027) and hyphen. -/
def nameChar (c : Char) : Bool :=
  isAsciiLetterCh c ||
  (decide (0xC0 ≤ c.toNat) && decide (c.toNat ≤ 0xFF)) ||
  isJsSpace c || c.toNat == 0x27 || c.toNat == 0x2D

/-- Character class of the email local part `[a-zA-Z0-9._%+\-]`. -/
def localChar (c : Char) : Bool :=
  isAsciiLetterCh c || isDigitCh c || c == '.' || c == '_' ||
  c == '%' || c == '+' || c == '-'

/-- Character class of the email domain part `[a-zA-Z0-9.\-]`. -/
def domainChar (c : Char) : Bool :=
  isAsciiLetterCh c || isDigitCh c || c == '.' || c == '-'

/-- Character class of the `phone` whitelist pattern `[\d\s+\-()]`. -/
def phoneChar (c : Char) : Bool :=
  isDigitCh c || isJsSpace c || c == '+' || c == '-' ||
  c == '(' || c == ')'

/-- Full match of `ALLOWED_PATTERNS.name`, the anchored regex
`[a-zA-ZÀ-ÿ\s'\-]` repeated 2 to 100 times: length between 2 and 100
and every character in the class. -/
def nameTest (l : List Char) : Bool :=
  decide (2 ≤ l.length) && decide (l.length ≤ 100) && l.all nameChar

/-- Splits a list at the first occurrence of `t`: returns the part
strictly before and the part strictly after, or `none` when `t` does
not occur. -/
def splitAtFirst (t : Char) : List Char → Option (List Char × List Char)
  | [] => none
  | c :: cs =>
    if c = t then some ([], cs)
    else (splitAtFirst t cs).map (fun p => (c :: p.1, p.2))

/-- Splits a list at the last occurrence of `t` (via the first
occurrence in the reversal). -/
def splitAtLast (t : Char) (l : List Char) : Option (List Char × List Char) :=
  match splitAtFirst t l.reverse with
  | some p => some (p.2.reverse, p.1.reverse)
  | none => none

/-- Full match of `ALLOWED_PATTERNS.email`, the anchored regex with a
nonempty local part over `localChar`, one at-sign, a nonempty domain
over `domainChar`, a literal dot, and 2 to 254 ASCII letters.  Since
neither character class contains the at-sign, the at-sign of a match is
the first (and only) one, and since the top-level segment contains no
dot, the dot of a match is the last dot after the at-sign; the regex
match is therefore equivalent to this deterministic decomposition. -/
def emailTest (l : List Char) : Bool :=
  match splitAtFirst '@' l with
  | none => false
  | some (loc, rest) =>
    !loc.isEmpty && loc.all localChar &&
    (match splitAtLast '.' rest with
     | none => false
     | some (dom, tld) =>
       !dom.isEmpty && dom.all domainChar &&
       decide (2 ≤ tld.length) && decide (tld.length ≤ 254) &&
       tld.all isAsciiLetterCh)

/-- Full match of `ALLOWED_PATTERNS.phone`, the anchored regex
`[\d\s+\-()]` repeated 0 to 20 times. -/
def phoneTest (l : List Char) : Bool :=
  decide (l.length ≤ 20) && l.all phoneChar

/-- Full match of `ALLOWED_PATTERNS.message`, the anchored regex
`[\s\S]` repeated 10 to 2000 times: any 10 to 2000 characters. -/
def messageTest (l : List Char) : Bool :=
  decide (10 ≤ l.length) && decide (l.length ≤ 2000)

/-- The closed `ALLOWED_SUBJECTS` enumeration. -/
def ALLOWED_SUBJECTS : List String :=
  ["info", "visit", "partnership", "other"]

/-- Embeds `ALLOWED_SUBJECTS.includes(v)`: `Array.prototype.includes`
compares with SameValueZero, so only a string value can equal one of
the listed subject strings. -/
def subjectIncluded (v : JSValue) : Bool :=
  match v with
  | .str s => ALLOWED_SUBJECTS.contains s
  | _ => false

/-- The request body as the validator sees it: the five form fields
plus the honeypot decoy, each an arbitrary JavaScript value (a missing
field reads as `undefined`). -/
structure FormData where
  name : JSValue
  email : JSValue
  phone : JSValue
  subject : JSValue
  message : JSValue
  honeypot : JSValue
deriving DecidableEq, Repr

/-- The `errors` object built by `validateFormData`: one optional
message per field (a key is present exactly when validation of that
field failed). -/
structure FormErrors where
  name : Option String
  email : Option String
  phone : Option String
  subject : Option String
  message : Option String
deriving DecidableEq, Repr

/-- Embeds `Object.keys(errors).length === 0`. -/
def FormErrors.isEmpty (e : FormErrors) : Bool :=
  e.name.isNone && e.email.isNone && e.phone.isNone &&
  e.subject.isNone && e.message.isNone

/-- The `{ valid, errors }` result of `validateFormData`. -/
structure ValidationResult where
  valid : Bool
  errors : FormErrors
deriving DecidableEq, Repr

/-- Shared shape of the required-field checks (`name`, `email`,
`message`): error unless the value is truthy, is a string, and its
trimmed value passes the pattern test — the source condition
`!v || typeof v !== 'string' || !pattern.test(v.trim())`. -/
def fieldCheck (v : JSValue) (test : List Char → Bool) (msg : String) :
    Option String :=
  match v with
  | .str s =>
    if decide (s ≠ "") && test (trimChars s.data) then none else some msg
  | _ => some msg

/-- The optional `phone` check: error only when the value is truthy,
is a string, trims to a nonempty string, and the trimmed value fails
the pattern — the source condition
`v && typeof v === 'string' && v.trim() && !pattern.test(v.trim())`. -/
def phoneFieldCheck (v : JSValue) : Option String :=
  match v with
  | .str s =>
    if decide (s ≠ "") && decide (trimChars s.data ≠ []) &&
        !phoneTest (trimChars s.data)
    then some "Invalid phone" else none
  | _ => none

/-- The `subject` check: error unless the value is truthy and listed
in `ALLOWED_SUBJECTS` — the source condition
`!v || !ALLOWED_SUBJECTS.includes(v)`. -/
def subjectFieldCheck (v : JSValue) : Option String :=
  if v.truthy && subjectIncluded v then none else some "Invalid subject"

/-- Embeds `validateFormData`: checks each field independently against
its whitelist pattern, collects one error entry per failing field, and
is valid exactly when the error object is empty. -/
def validateFormData (data : FormData) : ValidationResult :=
  let errors : FormErrors :=
    { name := fieldCheck data.name nameTest "Invalid name"
      email := fieldCheck data.email emailTest "Invalid email"
      phone := phoneFieldCheck data.phone
      subject := subjectFieldCheck data.subject
      message := fieldCheck data.message messageTest "Invalid message" }
  ⟨errors.isEmpty, errors⟩

/-- The only JavaScript exception the pipeline could raise: a
TypeError from calling a string method on a non-string value. -/
inductive JSErr where
  | typeError
deriving DecidableEq, Repr

/-- Evaluation of `v.trim()` under JavaScript semantics: a TypeError
unless `v` is a string. -/
def jsTrimE (v : JSValue) : Except JSErr String :=
  match v with
  | JSValue.str s => Except.ok (String.mk (trimChars s.data))
  | _ => Except.error JSErr.typeError

/-- Required-field check with explicit exception semantics, mirroring
the short-circuit order of the source: truthiness first, then the
typeof guard, and only then `v.trim()` (which could throw) and the
pattern test. -/
def fieldCheckE (v : JSValue) (test : List Char → Bool) (msg : String) :
    Except JSErr (Option String) :=
  if !v.truthy then Except.ok (some msg)
  else if !v.isString then Except.ok (some msg)
  else
    match jsTrimE v with
    | Except.error e => Except.error e
    | Except.ok t =>
      if !test t.data then Except.ok (some msg) else Except.ok none

/-- Optional `phone` check with explicit exception semantics, in the
short-circuit order of the source. -/
def phoneFieldCheckE (v : JSValue) : Except JSErr (Option String) :=
  if !v.truthy then Except.ok none
  else if !v.isString then Except.ok none
  else
    match jsTrimE v with
    | Except.error e => Except.error e
    | Except.ok t =>
      if decide (t.data ≠ []) && !phoneTest t.data
      then Except.ok (some "Invalid phone") else Except.ok none

/-- Embeds `validateFormData` under explicit JavaScript exception
semantics: each field check is evaluated in source order and any
TypeError aborts the whole call. -/
def validateFormDataE (data : FormData) : Except JSErr ValidationResult :=
  match fieldCheckE data.name nameTest "Invalid name" with
  | Except.error e => Except.error e
  | Except.ok nameErr =>
    match fieldCheckE data.email emailTest "Invalid email" with
    | Except.error e => Except.error e
    | Except.ok emailErr =>
      match phoneFieldCheckE data.phone with
      | Except.error e => Except.error e
      | Except.ok phoneErr =>
        let subjectErr := subjectFieldCheck data.subject
        match fieldCheckE data.message messageTest "Invalid message" with
        | Except.error e => Except.error e
        | Except.ok messageErr =>
          let errors : FormErrors :=
            { name := nameErr
              email := emailErr
              phone := phoneErr
              subject := subjectErr
              message := messageErr }
          Except.ok ⟨errors.isEmpty, errors⟩

/-- Drops characters up to and including the first greater-than sign,
returning the remaining suffix (with a length bound certifying that
something was consumed), or `none` when no greater-than sign occurs.
This is exactly how the greedy regex `<[^>]*>` extends a match that
started at a less-than sign: through the first subsequent
greater-than sign. -/
def afterFirstGt : (l : List Char) → Option { t : List Char // t.length < l.length }
  | [] => none
  | c :: cs =>
    if c = '>' then some ⟨cs, by simp⟩
    else
      match afterFirstGt cs with
      | some t => some ⟨t.1, by have := t.2; simp; omega⟩
      | none => none

/-- Embeds `str.replace(/<[^>]*>/g, '')` on the character list: scan
left to right; at a less-than sign, if a greater-than sign occurs later
the whole match (through the first such sign) is dropped and scanning
resumes after it, otherwise the regex fails at this position and the
character is kept. -/
def stripTags (l : List Char) : List Char :=
  match l with
  | [] => []
  | c :: cs =>
    if c = '<' then
      match afterFirstGt cs with
      | some t => stripTags t.1
      | none => c :: stripTags cs
    else c :: stripTags cs
termination_by l.length
decreasing_by
  · have := t.2; simp; omega
  · simp
  · simp

/-- Removes the leftmost substring of tag shape (a less-than sign,
any run of characters without a greater-than sign, a greater-than
sign) from the list, or returns `none` when no such substring exists.
The length bound certifies that a removal shortens the list. -/
def removeFirstTag : (l : List Char) → Option { t : List Char // t.length < l.length }
  | [] => none
  | c :: cs =>
    if c = '<' then
      match afterFirstGt cs with
      | some t => some ⟨t.1, by have := t.2; simp; omega⟩
      | none =>
        match removeFirstTag cs with
        | some t => some ⟨c :: t.1, by have := t.2; simp; omega⟩
        | none => none
    else
      match removeFirstTag cs with
      | some t => some ⟨c :: t.1, by have := t.2; simp; omega⟩
      | none => none

/-- Specification-side sanitizer, following the words of the spec:
remove every substring matching an HTML/XML tag shape, leaving the
remaining text content intact — realised as repeatedly deleting the
leftmost tag-shaped substring until none remains. -/
def stripSpec (l : List Char) : List Char :=
  match removeFirstTag l with
  | some t => stripSpec t.1
  | none => l
termination_by l.length
decreasing_by exact t.2

/-- Embeds `stripHTML`: the empty string for any non-string value,
otherwise the string with every tag-shaped substring removed. -/
def stripHTML (v : JSValue) : String :=
  match v with
  | JSValue.str s => String.mk (stripTags s.data)
  | _ => ""

/-- The `RATE_LIMIT_MAX` constant: at most three submissions per
identity per window. -/
def RATE_LIMIT_MAX : Nat := 3

/-- The `RATE_LIMIT_WINDOW_MS` constant: a fifteen-minute window in
milliseconds. -/
def RATE_LIMIT_WINDOW_MS : Int := 15 * 60 * 1000

/-- One value of the `rateLimitStore` map: submission count and the
timestamp of the first request of the current window. -/
structure RLEntry where
  count : Nat
  firstRequest : Int
deriving DecidableEq, Repr

/-- The in-memory `rateLimitStore`, a map from client identity to its
entry, embedded as an association list with at most one binding per
key. -/
abbrev RLStore := List (String × RLEntry)

/-- Embeds `rateLimitStore.get(ip)`: the entry bound to `ip`, if
any. -/
def storeGet (s : RLStore) (ip : String) : Option RLEntry :=
  match s with
  | [] => none
  | p :: rest => if p.1 = ip then some p.2 else storeGet rest ip

/-- Embeds `rateLimitStore.set(ip, e)` (and the in-place mutation of a
stored entry): replace the binding of `ip`, or append one. -/
def storeSet (s : RLStore) (ip : String) (e : RLEntry) : RLStore :=
  match s with
  | [] => [(ip, e)]
  | p :: rest => if p.1 = ip then (ip, e) :: rest else p :: storeSet rest ip e

/-- Embeds `isRateLimited`, with the current time and the store passed
explicitly: returns the Boolean decision (`true` means rate limited)
and the updated store.  No entry: create a fresh one and admit; entry
older than the window: reset it and admit; entry at the maximum:
reject without touching the store; otherwise increment and admit. -/
def isRateLimited (ip : String) (now : Int) (store : RLStore) :
    Bool × RLStore :=
  match storeGet store ip with
  | none => (false, storeSet store ip ⟨1, now⟩)
  | some entry =>
    if now - entry.firstRequest > RATE_LIMIT_WINDOW_MS then
      (false, storeSet store ip ⟨1, now⟩)
    else if entry.count ≥ RATE_LIMIT_MAX then
      (true, store)
    else
      (false, storeSet store ip ⟨entry.count + 1, entry.firstRequest⟩)

/-- Replays a sequence of `isRateLimited` calls (identity and
timestamp per call) against a store, threading the store through. -/
def runRequests : List (String × Int) → RLStore → RLStore
  | [], s => s
  | q :: rest, s => runRequests rest (isRateLimited q.1 q.2 s).2

/-- Characters of a list strictly before its first comma, the whole
list when no comma occurs. -/
def beforeFirstComma : List Char → List Char
  | [] => []
  | c :: cs => if c = ',' then [] else c :: beforeFirstComma cs

/-- First entry of a comma-separated forwarded-for chain:
`header.split(',')[0]`, the prefix of the header before its first
comma (the whole header when it has no comma, the empty string for an
empty header). -/
def firstForwarded (h : String) : String :=
  String.mk (beforeFirstComma h.data)

/-- Embeds the client-identity resolution
`req.headers['x-forwarded-for']?.split(',')[0] || req.ip || 'unknown'`:
optional chaining yields `undefined` (falsy) when the header is
absent, an empty first entry is falsy, and an absent or empty direct
address falls through to the literal token. -/
def resolveClientIp (xff : Option String) (ip : Option String) : String :=
  let first := match xff with
    | some h => firstForwarded h
    | none => ""
  if first ≠ "" then first
  else
    match ip with
    | some i => if i ≠ "" then i else "unknown"
    | none => "unknown"

/-- Specification-side fallback through the direct connection address:
that address when available (present and nonempty), otherwise the
literal token. -/
def directAddressOr (ip : Option String) : String :=
  match ip with
  | some i => if i ≠ "" then i else "unknown"
  | none => "unknown"

/-- The transport metadata and body of one POST request. -/
structure Request where
  xForwardedFor : Option String
  ip : Option String
  body : Option FormData
deriving DecidableEq, Repr

/-- A body with every field absent, the value of `req.body || {}` when
no body was parsed. -/
def emptyForm : FormData :=
  ⟨JSValue.undef, JSValue.undef, JSValue.undef,
   JSValue.undef, JSValue.undef, JSValue.undef⟩

/-- The sanitized record handed to `itemsService.createOne`. -/
structure SanitizedData where
  name : String
  email : String
  phone : String
  subject : JSValue
  message : String
  ip_address : String
  status : String
deriving DecidableEq, Repr

/-- Embeds `String.prototype.toLowerCase` on the validated (hence
ASCII) email value: character-wise lower-casing. -/
def jsToLower (s : String) : String :=
  String.mk (s.data.map Char.toLower)

/-- Builds `sanitizedData` under explicit JavaScript exception
semantics, in the evaluation order of the object literal: `name`,
`email`, `phone`, `subject`, `message` — a `.trim()` on a non-string
field throws (possible for a truthy non-string `phone`, which
validation does not reject). -/
def sanitizeE (body : FormData) (clientIp : String) :
    Except JSErr SanitizedData :=
  match jsTrimE body.name with
  | Except.error e => Except.error e
  | Except.ok tn =>
    match jsTrimE body.email with
    | Except.error e => Except.error e
    | Except.ok te =>
      match (if body.phone.truthy
             then (jsTrimE body.phone).map
               (fun t => String.mk (stripTags t.data))
             else Except.ok "") with
      | Except.error e => Except.error e
      | Except.ok ph =>
        match jsTrimE body.message with
        | Except.error e => Except.error e
        | Except.ok tm =>
          Except.ok
            ⟨String.mk (stripTags tn.data), jsToLower te, ph,
             body.subject, String.mk (stripTags tm.data),
             clientIp, "new"⟩

/-- The JSON response sent to the client: HTTP status, `message`
field, and the per-field `errors` object when present. -/
structure Response where
  status : Nat
  message : String
  errors : Option FormErrors
deriving DecidableEq, Repr

/-- Observable outcome of one handler invocation: the response, the
record given to the storage collaborator (`none` when
`itemsService.createOne` was never invoked or threw), whether the
notification collaborator was invoked and whether it succeeded, and
the rate-limit store after the call. -/
structure HandlerResult where
  resp : Response
  stored : Option SanitizedData
  mailAttempted : Bool
  mailDelivered : Bool
  store : RLStore
deriving Repr

/-- Embeds the `router.post` handler.  The current time, the
rate-limit store, and failure oracles for the two collaborators are
explicit parameters.  Pipeline: resolve the client identity, rate
check (429), honeypot check (200 decoy response, no side effects),
validation (400 with errors), sanitization (a TypeError there, or a
`createOne` failure, reaches the outer catch: 500, nothing stored),
storage, then notification whose failure is caught and logged so the
200 success response is returned regardless. -/
def handler (req : Request) (store0 : RLStore) (now : Int)
    (createOneFails : Bool) (mailFails : Bool) : HandlerResult :=
  let clientIp := resolveClientIp req.xForwardedFor req.ip
  let rl := isRateLimited clientIp now store0
  if rl.1 then
    ⟨⟨429, "Too many requests. Try again later.", none⟩,
     none, false, false, rl.2⟩
  else
    let body := req.body.getD emptyForm
    if body.honeypot.truthy then
      ⟨⟨200, "Thank you for your message.", none⟩,
       none, false, false, rl.2⟩
    else
      let validation := validateFormData body
      if !validation.valid then
        ⟨⟨400, "Validation failed", some validation.errors⟩,
         none, false, false, rl.2⟩
      else
        match sanitizeE body clientIp with
        | Except.error _ =>
          ⟨⟨500, "Internal server error.", none⟩,
           none, false, false, rl.2⟩
        | Except.ok sd =>
          if createOneFails then
            ⟨⟨500, "Internal server error.", none⟩,
             none, false, false, rl.2⟩
          else if mailFails then
            ⟨⟨200, "Message received successfully.", none⟩,
             some sd, true, false, rl.2⟩
          else
            ⟨⟨200, "Message received successfully.", none⟩,
             some sd, true, true, rl.2⟩

/-- A field of a submission in the sense of the data model (§3): a
text field is either absent or carries a string. -/
def wellTypedField (v : JSValue) : Prop :=
  v = JSValue.undef ∨ ∃ s, v = JSValue.str s

/-- Whitelist contract of the required `name` field (§4.3 table): a
string whose trimmed value is 2 to 100 allowed characters. -/
def nameContract (v : JSValue) : Prop :=
  ∃ s, v = JSValue.str s ∧ nameTest (trimChars s.data) = true

/-- Whitelist contract of the required `email` field: a string whose
trimmed value matches the email pattern. -/
def emailContract (v : JSValue) : Prop :=
  ∃ s, v = JSValue.str s ∧ emailTest (trimChars s.data) = true

/-- Whitelist contract of the optional `phone` field: absent, or a
string that is blank (trims to nothing) or whose trimmed value
matches the phone pattern. -/
def phoneContract (v : JSValue) : Prop :=
  v = JSValue.undef ∨
    ∃ s, v = JSValue.str s ∧
      (trimChars s.data = [] ∨ phoneTest (trimChars s.data) = true)

/-- Whitelist contract of the required `subject` field: one of the
closed enumeration of subject strings. -/
def subjectContract (v : JSValue) : Prop :=
  ∃ s, v = JSValue.str s ∧ s ∈ ALLOWED_SUBJECTS

/-- Whitelist contract of the required `message` field: a string
whose trimmed value is 10 to 2000 characters. -/
def messageContract (v : JSValue) : Prop :=
  ∃ s, v = JSValue.str s ∧ messageTest (trimChars s.data) = true

/-- A well-formed genuine submission (the §8 scenario fixture). -/
def genuineBody : FormData :=
  ⟨JSValue.str "Marco Rossi", JSValue.str "marco@example.com",
   JSValue.str "+39 06 1234567", JSValue.str "info",
   JSValue.str "I want information about cohousing.", JSValue.undef⟩

/-- A request carrying the genuine submission. -/
def genuineReq : Request := ⟨none, some "203.0.113.7", some genuineBody⟩

/-- A submission whose honeypot decoy is filled and whose other
fields are all absent (hence invalid). -/
def honeypotBody : FormData :=
  ⟨JSValue.undef, JSValue.undef, JSValue.undef, JSValue.undef,
   JSValue.undef, JSValue.str "gotcha"⟩

/-- A request carrying the honeypot-triggering submission. -/
def honeypotReq : Request := ⟨none, some "203.0.113.7", some honeypotBody⟩

/-- Scanning for a greater-than sign fails exactly when none
occurs. -/
theorem afterFirstGt_eq_none_iff (l : List Char) :
    afterFirstGt l = none ↔ '>' ∉ l := by
  induction l with
  | nil => simp [afterFirstGt]
  | cons c cs ih =>
    by_cases hc : c = '>'
    · subst hc
      simp [afterFirstGt]
    · rw [afterFirstGt]
      rw [if_neg hc]
      cases h : afterFirstGt cs with
      | some t =>
        have hmem : '>' ∈ cs := by
          by_contra hnm
          rw [← ih] at hnm
          rw [hnm] at h
          cases h
        simp [List.mem_cons, hmem]
      | none =>
        have hnm : '>' ∉ cs := ih.mp h
        simp [List.mem_cons, hnm, Ne.symm hc]

/-- A list without a greater-than sign has no tag to strip. -/
theorem stripTags_of_no_gt (l : List Char) (h : '>' ∉ l) : stripTags l = l := by
  induction l with
  | nil => rw [stripTags]
  | cons c cs ih =>
    have hcs : '>' ∉ cs := fun hm => h (List.mem_cons_of_mem c hm)
    rw [stripTags]
    by_cases hc : c = '<'
    · subst hc
      rw [if_pos rfl, (afterFirstGt_eq_none_iff cs).mpr hcs]
      rw [ih hcs]
    · rw [if_neg hc, ih hcs]

/-- A list without a greater-than sign has no tag-shaped substring. -/
theorem removeFirstTag_of_no_gt (l : List Char) (h : '>' ∉ l) :
    removeFirstTag l = none := by
  induction l with
  | nil => rw [removeFirstTag]
  | cons c cs ih =>
    have hcs : '>' ∉ cs := fun hm => h (List.mem_cons_of_mem c hm)
    rw [removeFirstTag]
    by_cases hc : c = '<'
    · subst hc
      rw [if_pos rfl, (afterFirstGt_eq_none_iff cs).mpr hcs, ih hcs]
    · rw [if_neg hc, ih hcs]

/-- The single-pass stripper is the identity on lists with no
tag-shaped substring. -/
theorem stripTags_of_removeFirstTag_none (l : List Char)
    (h : removeFirstTag l = none) : stripTags l = l := by
  induction l with
  | nil => rw [stripTags]
  | cons c cs ih =>
    rw [removeFirstTag] at h
    rw [stripTags]
    by_cases hc : c = '<'
    · subst hc
      rw [if_pos rfl] at h ⊢
      cases hg : afterFirstGt cs with
      | some t =>
        rw [hg] at h
        cases h
      | none =>
        rw [hg] at h
        have hcs : '>' ∉ cs := (afterFirstGt_eq_none_iff cs).mp hg
        rw [stripTags_of_no_gt cs hcs]
    · rw [if_neg hc] at h ⊢
      cases hr : removeFirstTag cs with
      | some t =>
        rw [hr] at h
        cases h
      | none =>
        rw [ih hr]

/-- Removing the leftmost tag-shaped substring commutes with the
single-pass stripper: both delete it. -/
theorem stripTags_removeFirstTag (l : List Char)
    (t : { t : List Char // t.length < l.length })
    (h : removeFirstTag l = some t) : stripTags l = stripTags t.1 := by
  induction l with
  | nil => cases h
  | cons c cs ih =>
    rw [removeFirstTag] at h
    rw [stripTags]
    by_cases hc : c = '<'
    · subst hc
      rw [if_pos rfl] at h ⊢
      cases hg : afterFirstGt cs with
      | some u =>
        rw [hg] at h
        have : t.1 = u.1 := by
          cases h
          rfl
        rw [this]
      | none =>
        rw [hg] at h
        have hcs : '>' ∉ cs := (afterFirstGt_eq_none_iff cs).mp hg
        rw [removeFirstTag_of_no_gt cs hcs] at h
        cases h
    · rw [if_neg hc] at h ⊢
      cases hr : removeFirstTag cs with
      | some u =>
        rw [hr] at h
        have ht : t.1 = c :: u.1 := by
          cases h
          rfl
        rw [ht, ih u hr]
        rw [stripTags]
        rw [if_neg hc]
      | none =>
        rw [hr] at h
        cases h

/-- The output of the single-pass stripper contains no tag-shaped
substring. -/
theorem removeFirstTag_stripTags (l : List Char) :
    removeFirstTag (stripTags l) = none := by
  induction l using stripTags.induct with
  | case1 =>
    rw [stripTags, removeFirstTag]
  | case2 cs t hg ih =>
    rw [stripTags, if_pos rfl, hg]
    exact ih
  | case3 cs hg ih =>
    have hcs : '>' ∉ cs := (afterFirstGt_eq_none_iff cs).mp hg
    rw [stripTags, if_pos rfl, hg]
    rw [removeFirstTag, if_pos rfl]
    rw [stripTags_of_no_gt cs hcs]
    rw [hg, removeFirstTag_of_no_gt cs hcs]
  | case4 c cs hc ih =>
    rw [stripTags, if_neg hc]
    rw [removeFirstTag, if_neg hc, ih]

/-- Idempotence of the character-level stripper. -/
theorem stripTags_idem (l : List Char) :
    stripTags (stripTags l) = stripTags l :=
  stripTags_of_removeFirstTag_none (stripTags l) (removeFirstTag_stripTags l)

/-- The single-pass stripper computes the specification-side
repeated removal of leftmost tag-shaped substrings. -/
theorem stripSpec_eq_stripTags (l : List Char) : stripSpec l = stripTags l := by
  induction l using stripSpec.induct with
  | case1 l t h ih =>
    rw [stripSpec, h]
    show stripSpec t.1 = stripTags l
    rw [ih]
    exact (stripTags_removeFirstTag l t h).symm
  | case2 l h =>
    rw [stripSpec, h]
    show l = stripTags l
    exact (stripTags_of_removeFirstTag_none l h).symm

/-- The part after the first greater-than sign is a suffix. -/
theorem afterFirstGt_suffix (l : List Char)
    (t : { t : List Char // t.length < l.length })
    (h : afterFirstGt l = some t) : t.1.IsSuffix l := by
  induction l with
  | nil => cases h
  | cons c cs ih =>
    rw [afterFirstGt] at h
    by_cases hc : c = '>'
    · rw [if_pos hc] at h
      have : t.1 = cs := by
        cases h
        rfl
      rw [this]
      exact List.suffix_cons c cs
    · rw [if_neg hc] at h
      cases hg : afterFirstGt cs with
      | some u =>
        rw [hg] at h
        have : t.1 = u.1 := by
          cases h
          rfl
        rw [this]
        exact (ih u hg).trans (List.suffix_cons c cs)
      | none =>
        rw [hg] at h
        cases h

/-- Stripping only deletes characters: the output is a sublist of
the input (remaining text, in order). -/
theorem stripTags_sublist (l : List Char) : (stripTags l).Sublist l := by
  induction l using stripTags.induct with
  | case1 =>
    rw [stripTags]
  | case2 cs t hg ih =>
    rw [stripTags, if_pos rfl, hg]
    exact (ih.trans (afterFirstGt_suffix cs t hg).sublist).trans
      (List.sublist_cons_self '<' cs)
  | case3 cs hg ih =>
    rw [stripTags, if_pos rfl, hg]
    exact ih.cons₂ '<'
  | case4 c cs hc ih =>
    rw [stripTags, if_neg hc]
    exact ih.cons₂ c

/-- Reading back a binding just written. -/
theorem storeGet_storeSet_self (s : RLStore) (ip : String) (e : RLEntry) :
    storeGet (storeSet s ip e) ip = some e := by
  induction s with
  | nil => simp [storeSet, storeGet]
  | cons p rest ih =>
    by_cases hp : p.1 = ip
    · rw [storeSet, if_pos hp, storeGet, if_pos rfl]
    · rw [storeSet, if_neg hp, storeGet, if_neg hp, ih]

/-- Every binding after a write is the written one or an old one. -/
theorem mem_storeSet (s : RLStore) (ip : String) (e : RLEntry)
    (p : String × RLEntry) (h : p ∈ storeSet s ip e) :
    p = (ip, e) ∨ p ∈ s := by
  induction s with
  | nil =>
    rw [storeSet] at h
    rcases List.mem_singleton.mp h with rfl
    exact Or.inl rfl
  | cons q rest ih =>
    rw [storeSet] at h
    by_cases hq : q.1 = ip
    · rw [if_pos hq] at h
      rcases List.mem_cons.mp h with rfl | hmem
      · exact Or.inl rfl
      · exact Or.inr (List.mem_cons_of_mem q hmem)
    · rw [if_neg hq] at h
      rcases List.mem_cons.mp h with rfl | hmem
      · exact Or.inr (List.mem_cons_self _ _)
      · rcases ih hmem with h1 | h2
        · exact Or.inl h1
        · exact Or.inr (List.mem_cons_of_mem q h2)

/-- First branch of `isRateLimited`: unknown identity, entry created,
admitted. -/
theorem isRateLimited_fresh (ip : String) (now : Int) (s : RLStore)
    (h : storeGet s ip = none) :
    isRateLimited ip now s = (false, storeSet s ip ⟨1, now⟩) := by
  rw [isRateLimited, h]

/-- Second branch: entry older than the window, reset, admitted. -/
theorem isRateLimited_reset (ip : String) (now : Int) (s : RLStore)
    (e : RLEntry) (h : storeGet s ip = some e)
    (hw : now - e.firstRequest > RATE_LIMIT_WINDOW_MS) :
    isRateLimited ip now s = (false, storeSet s ip ⟨1, now⟩) := by
  rw [isRateLimited, h]
  simp only [if_pos hw]

/-- Fourth branch: in-window entry below the maximum, incremented,
admitted. -/
theorem isRateLimited_incr (ip : String) (now : Int) (s : RLStore)
    (e : RLEntry) (h : storeGet s ip = some e)
    (hw : ¬ now - e.firstRequest > RATE_LIMIT_WINDOW_MS)
    (hc : e.count < RATE_LIMIT_MAX) :
    isRateLimited ip now s =
      (false, storeSet s ip ⟨e.count + 1, e.firstRequest⟩) := by
  rw [isRateLimited, h]
  simp only [if_neg hw, if_neg (Nat.not_le.mpr hc)]

/-- Third branch: in-window entry at the maximum, rejected, store
untouched. -/
theorem isRateLimited_reject (ip : String) (now : Int) (s : RLStore)
    (e : RLEntry) (h : storeGet s ip = some e)
    (hw : ¬ now - e.firstRequest > RATE_LIMIT_WINDOW_MS)
    (hc : RATE_LIMIT_MAX ≤ e.count) :
    isRateLimited ip now s = (true, s) := by
  rw [isRateLimited, h]
  simp only [if_neg hw, if_pos hc]

/-- One `isRateLimited` call preserves the count bounds of every
entry. -/
theorem isRateLimited_inv (ip : String) (now : Int) (s : RLStore)
    (hs : ∀ p ∈ s, 1 ≤ p.2.count ∧ p.2.count ≤ RATE_LIMIT_MAX) :
    ∀ p ∈ (isRateLimited ip now s).2,
      1 ≤ p.2.count ∧ p.2.count ≤ RATE_LIMIT_MAX := by
  intro p hp
  cases hg : storeGet s ip with
  | none =>
    rw [isRateLimited_fresh ip now s hg] at hp
    rcases mem_storeSet s ip ⟨1, now⟩ p hp with rfl | hmem
    · exact ⟨le_refl 1, (by decide : (1 : Nat) ≤ RATE_LIMIT_MAX)⟩
    · exact hs p hmem
  | some e =>
    by_cases hw : now - e.firstRequest > RATE_LIMIT_WINDOW_MS
    · rw [isRateLimited_reset ip now s e hg hw] at hp
      rcases mem_storeSet s ip ⟨1, now⟩ p hp with rfl | hmem
      · exact ⟨le_refl 1, (by decide : (1 : Nat) ≤ RATE_LIMIT_MAX)⟩
      · exact hs p hmem
    · by_cases hc : RATE_LIMIT_MAX ≤ e.count
      · rw [isRateLimited_reject ip now s e hg hw hc] at hp
        exact hs p hp
      · rw [isRateLimited_incr ip now s e hg hw (Nat.not_le.mp hc)] at hp
        rcases mem_storeSet s ip ⟨e.count + 1, e.firstRequest⟩ p hp
          with rfl | hmem
        · exact ⟨Nat.le_add_left 1 e.count,
            Nat.succ_le_of_lt (Nat.not_le.mp hc)⟩
        · exact hs p hmem

/-- A whole request sequence preserves the count bounds. -/
theorem runRequests_inv (reqs : List (String × Int)) (s : RLStore)
    (hs : ∀ p ∈ s, 1 ≤ p.2.count ∧ p.2.count ≤ RATE_LIMIT_MAX) :
    ∀ p ∈ runRequests reqs s, 1 ≤ p.2.count ∧ p.2.count ≤ RATE_LIMIT_MAX := by
  induction reqs generalizing s with
  | nil => exact hs
  | cons q rest ih =>
    rw [runRequests]
    exact ih (isRateLimited q.1 q.2 s).2 (isRateLimited_inv q.1 q.2 s hs)

/-- Absence of a value and absence of its presence witness agree. -/
theorem isNone_iff_not_isSome {α : Type} (o : Option α) :
    o.isNone = true ↔ ¬ o.isSome = true := by
  cases o <;> simp

/-- The required-field check fails exactly when the field is not a
string whose trimmed value passes the test (for tests rejecting the
empty list, as all three required-field tests do). -/
theorem fieldCheck_isSome_iff (v : JSValue) (test : List Char → Bool)
    (msg : String) (hv : wellTypedField v) (h0 : test [] = false) :
    (fieldCheck v test msg).isSome = true ↔
      ¬ ∃ s, v = JSValue.str s ∧ test (trimChars s.data) = true := by
  rcases hv with rfl | ⟨s, rfl⟩
  · simp [fieldCheck]
  · by_cases hs : s = ""
    · subst hs
      have h1 : trimChars (String.data "") = [] := rfl
      simp [fieldCheck, h1, h0]
    · by_cases ht : test (trimChars s.data) = true
      · simp [fieldCheck, hs, ht]
      · simp [fieldCheck, hs, ht]

/-- The phone check fails exactly when the phone contract is
violated. -/
theorem phoneFieldCheck_isSome_iff (v : JSValue) (hv : wellTypedField v) :
    (phoneFieldCheck v).isSome = true ↔ ¬ phoneContract v := by
  rcases hv with rfl | ⟨s, rfl⟩
  · simp [phoneFieldCheck, phoneContract]
  · by_cases hs : s = ""
    · subst hs
      have h1 : trimChars (String.data "") = [] := rfl
      simp [phoneFieldCheck, phoneContract, h1]
    · by_cases he : trimChars s.data = []
      · simp [phoneFieldCheck, phoneContract, hs, he]
      · by_cases ht : phoneTest (trimChars s.data) = true
        · simp [phoneFieldCheck, phoneContract, hs, he, ht]
        · simp [phoneFieldCheck, phoneContract, hs, he, ht]

/-- The subject check fails exactly when the subject contract is
violated. -/
theorem subjectFieldCheck_isSome_iff (v : JSValue) (hv : wellTypedField v) :
    (subjectFieldCheck v).isSome = true ↔ ¬ subjectContract v := by
  rcases hv with rfl | ⟨s, rfl⟩
  · simp [subjectFieldCheck, subjectContract, JSValue.truthy, subjectIncluded]
  · by_cases hmem : s ∈ ALLOWED_SUBJECTS
    · have hs : s ≠ "" := by
        rintro rfl
        simp [ALLOWED_SUBJECTS] at hmem
      have hc : ALLOWED_SUBJECTS.contains s = true := by
        simpa [List.contains, List.elem_iff] using hmem
      simp [subjectFieldCheck, subjectContract, JSValue.truthy,
        subjectIncluded, hs, hc, hmem]
    · have hc : ALLOWED_SUBJECTS.contains s = false := by
        simp [List.contains]
        simpa [List.elem_iff] using hmem
      simp [subjectFieldCheck, subjectContract, JSValue.truthy,
        subjectIncluded, hc, hmem]

/-- The exception-aware required-field check never throws and agrees
with the pure one. -/
theorem fieldCheckE_eq (v : JSValue) (test : List Char → Bool) (msg : String) :
    fieldCheckE v test msg = Except.ok (fieldCheck v test msg) := by
  cases v with
  | str s =>
    by_cases hs : s = ""
    · subst hs
      simp [fieldCheckE, fieldCheck, JSValue.truthy, JSValue.isString, jsTrimE]
    · by_cases ht : test (trimChars s.data) = true <;>
        simp [fieldCheckE, fieldCheck, JSValue.truthy, JSValue.isString,
          jsTrimE, hs, ht]
  | undef => rfl
  | null => rfl
  | bool b => cases b <;> rfl
  | num n =>
    simp [fieldCheckE, fieldCheck, JSValue.isString]
  | arr => rfl
  | obj => rfl

/-- The exception-aware phone check never throws and agrees with the
pure one. -/
theorem phoneFieldCheckE_eq (v : JSValue) :
    phoneFieldCheckE v = Except.ok (phoneFieldCheck v) := by
  cases v with
  | str s =>
    by_cases hs : s = ""
    · subst hs
      simp [phoneFieldCheckE, phoneFieldCheck, JSValue.truthy,
        JSValue.isString, jsTrimE]
    · by_cases he : trimChars s.data = []
      · simp [phoneFieldCheckE, phoneFieldCheck, JSValue.truthy,
          JSValue.isString, jsTrimE, hs, he]
      · by_cases ht : phoneTest (trimChars s.data) = true <;>
          simp [phoneFieldCheckE, phoneFieldCheck, JSValue.truthy,
            JSValue.isString, jsTrimE, hs, he, ht]
  | undef => rfl
  | null => rfl
  | bool b => cases b <;> rfl
  | num n =>
    simp [phoneFieldCheckE, phoneFieldCheck, JSValue.isString]
  | arr => rfl
  | obj => rfl

/-- Claim C1, counterexample: a honeypot-trapped submission and a
genuine accepted submission both receive status 200, but their
response bodies differ (`Thank you for your message.` against
`Message received successfully.`), so the honeypot response is not
the same body as the genuine success response; the honeypot request
stores nothing while the genuine one is stored. -/
theorem honeypot_response_counterexample :
    (handler honeypotReq [] 0 false false).resp.status = 200 ∧
    (handler genuineReq [] 0 false false).resp.status = 200 ∧
    (handler genuineReq [] 0 false false).stored.isSome = true ∧
    (handler honeypotReq [] 0 false false).stored = none ∧
    ¬ (handler honeypotReq [] 0 false false).resp.message =
        (handler genuineReq [] 0 false false).resp.message := by
  decide

/-- Claim C1, amended: for every submission whose honeypot field
holds a truthy value and which is not rate limited, the handler
returns the same success status (200) as a genuine accepted
submission together with the fixed decoy body
`Thank you for your message.` (which differs from the genuine success
body), regardless of the validity of the other fields, and the
storage and notification collaborators are never invoked. -/
theorem honeypot_trap_amended (req : Request) (store0 : RLStore)
    (now : Int) (c m : Bool)
    (hrl : (isRateLimited (resolveClientIp req.xForwardedFor req.ip)
      now store0).1 = false)
    (hhp : (req.body.getD emptyForm).honeypot.truthy = true) :
    (handler req store0 now c m).resp.status = 200 ∧
    (handler req store0 now c m).resp.message = "Thank you for your message." ∧
    (handler req store0 now c m).stored = none ∧
    (handler req store0 now c m).mailAttempted = false := by
  have h1 : ¬ (isRateLimited (resolveClientIp req.xForwardedFor req.ip)
      now store0).1 = true := by
    rw [hrl]
    simp
  simp only [handler, if_neg h1, if_pos hhp]
  simp

/-- Witness for the amended C1 theorem at the concrete
honeypot-triggering request. -/
theorem honeypot_trap_amended_witness :
    (isRateLimited (resolveClientIp honeypotReq.xForwardedFor honeypotReq.ip)
      0 []).1 = false ∧
    (honeypotReq.body.getD emptyForm).honeypot.truthy = true ∧
    ((handler honeypotReq [] 0 false false).resp.status = 200 ∧
     (handler honeypotReq [] 0 false false).resp.message =
       "Thank you for your message." ∧
     (handler honeypotReq [] 0 false false).stored = none ∧
     (handler honeypotReq [] 0 false false).mailAttempted = false) :=
  ⟨by decide, by decide,
   honeypot_trap_amended honeypotReq [] 0 false false (by decide) (by decide)⟩

/-- Claim C2: with the maximum of 3 per window, four consecutive
admission attempts by one identity within one window length yield
admit, admit, admit, reject, and a further attempt strictly more
than the window length after the first yields admit again. -/
theorem rate_limit_admission_sequence (ip : String) (s0 : RLStore)
    (t1 t2 t3 t4 t5 : Int) (h0 : storeGet s0 ip = none)
    (h12 : t1 ≤ t2) (h23 : t2 ≤ t3) (h34 : t3 ≤ t4)
    (h4w : t4 ≤ t1 + RATE_LIMIT_WINDOW_MS)
    (h5w : t1 + RATE_LIMIT_WINDOW_MS < t5) :
    (isRateLimited ip t1 s0).1 = false ∧
    (isRateLimited ip t2 (isRateLimited ip t1 s0).2).1 = false ∧
    (isRateLimited ip t3
      (isRateLimited ip t2 (isRateLimited ip t1 s0).2).2).1 = false ∧
    (isRateLimited ip t4 (isRateLimited ip t3
      (isRateLimited ip t2 (isRateLimited ip t1 s0).2).2).2).1 = true ∧
    (isRateLimited ip t5 (isRateLimited ip t4 (isRateLimited ip t3
      (isRateLimited ip t2 (isRateLimited ip t1 s0).2).2).2).2).1 = false := by
  have e1 := isRateLimited_fresh ip t1 s0 h0
  have g1 : storeGet (isRateLimited ip t1 s0).2 ip = some ⟨1, t1⟩ := by
    rw [e1]
    exact storeGet_storeSet_self s0 ip ⟨1, t1⟩
  have e2 := isRateLimited_incr ip t2 (isRateLimited ip t1 s0).2 ⟨1, t1⟩ g1
    (by simp only []; omega) (show (1 : Nat) < RATE_LIMIT_MAX by decide)
  have g2 : storeGet (isRateLimited ip t2 (isRateLimited ip t1 s0).2).2 ip =
      some ⟨2, t1⟩ := by
    rw [e2]
    exact storeGet_storeSet_self _ ip ⟨2, t1⟩
  have e3 := isRateLimited_incr ip t3 _ ⟨2, t1⟩ g2
    (by simp only []; omega) (show (2 : Nat) < RATE_LIMIT_MAX by decide)
  have g3 : storeGet (isRateLimited ip t3
      (isRateLimited ip t2 (isRateLimited ip t1 s0).2).2).2 ip =
      some ⟨3, t1⟩ := by
    rw [e3]
    exact storeGet_storeSet_self _ ip ⟨3, t1⟩
  have e4 := isRateLimited_reject ip t4 _ ⟨3, t1⟩ g3
    (by simp only []; omega) (show RATE_LIMIT_MAX ≤ (3 : Nat) by decide)
  have g4 : storeGet (isRateLimited ip t4 (isRateLimited ip t3
      (isRateLimited ip t2 (isRateLimited ip t1 s0).2).2).2).2 ip =
      some ⟨3, t1⟩ := by
    rw [e4]
    exact g3
  have e5 := isRateLimited_reset ip t5 _ ⟨3, t1⟩ g4 (by simp only []; omega)
  exact ⟨by rw [e1], by rw [e2], by rw [e3], by rw [e4], by rw [e5]⟩

/-- Witness for C2 at identity `203.0.113.7`, times 0, 1, 2, 3 and
900001 against the empty store. -/
theorem rate_limit_admission_sequence_witness :
    storeGet [] "203.0.113.7" = none ∧
    (0 : Int) ≤ 1 ∧ (1 : Int) ≤ 2 ∧ (2 : Int) ≤ 3 ∧
    (3 : Int) ≤ 0 + RATE_LIMIT_WINDOW_MS ∧
    (0 : Int) + RATE_LIMIT_WINDOW_MS < 900001 ∧
    ((isRateLimited "203.0.113.7" 0 []).1 = false ∧
     (isRateLimited "203.0.113.7" 1
       (isRateLimited "203.0.113.7" 0 []).2).1 = false ∧
     (isRateLimited "203.0.113.7" 2 (isRateLimited "203.0.113.7" 1
       (isRateLimited "203.0.113.7" 0 []).2).2).1 = false ∧
     (isRateLimited "203.0.113.7" 3 (isRateLimited "203.0.113.7" 2
       (isRateLimited "203.0.113.7" 1
         (isRateLimited "203.0.113.7" 0 []).2).2).2).1 = true ∧
     (isRateLimited "203.0.113.7" 900001 (isRateLimited "203.0.113.7" 3
       (isRateLimited "203.0.113.7" 2 (isRateLimited "203.0.113.7" 1
         (isRateLimited "203.0.113.7" 0 []).2).2).2).2).1 = false) :=
  ⟨rfl, by decide, by decide, by decide, by decide, by decide,
   rate_limit_admission_sequence "203.0.113.7" [] 0 1 2 3 900001 rfl
     (by decide) (by decide) (by decide) (by decide) (by decide)⟩

/-- Claim C3, counterexample: an identity with an entry at the
maximum count whose elapsed time equals the window length exactly is
rejected and its entry is neither reset nor given a fresh window
start — refuting the claim that a boundary arrival is treated as
inside a new window with the entry reset to count 1 and the request
admitted. -/
theorem window_boundary_counterexample :
    storeGet [("203.0.113.7", ⟨3, 0⟩)] "203.0.113.7" = some ⟨3, 0⟩ ∧
    RATE_LIMIT_WINDOW_MS - 0 = RATE_LIMIT_WINDOW_MS ∧
    (isRateLimited "203.0.113.7" RATE_LIMIT_WINDOW_MS
      [("203.0.113.7", ⟨3, 0⟩)]).1 = true ∧
    (isRateLimited "203.0.113.7" RATE_LIMIT_WINDOW_MS
      [("203.0.113.7", ⟨3, 0⟩)]).2 = [("203.0.113.7", ⟨3, 0⟩)] := by
  decide

/-- Claim C3, amended: a request arriving exactly at the window
boundary (elapsed time equal to the window length) is treated as
inside the old window, because the reset comparison is strict: the
entry is not reset — the request is admitted with the count
incremented when the count is below the maximum, and rejected when
the count has reached the maximum. -/
theorem window_boundary_amended (ip : String) (s : RLStore) (now : Int)
    (e : RLEntry) (h : storeGet s ip = some e)
    (hb : now - e.firstRequest = RATE_LIMIT_WINDOW_MS) :
    (e.count < RATE_LIMIT_MAX →
      isRateLimited ip now s =
        (false, storeSet s ip ⟨e.count + 1, e.firstRequest⟩)) ∧
    (RATE_LIMIT_MAX ≤ e.count → isRateLimited ip now s = (true, s)) := by
  have hw : ¬ now - e.firstRequest > RATE_LIMIT_WINDOW_MS := by omega
  exact ⟨fun hc => isRateLimited_incr ip now s e h hw hc,
    fun hc => isRateLimited_reject ip now s e h hw hc⟩

/-- Witness for the amended C3 theorem: one boundary arrival below
the maximum (incremented and admitted in place) and one at the
maximum (rejected, store unchanged). -/
theorem window_boundary_amended_witness :
    isRateLimited "203.0.113.7" RATE_LIMIT_WINDOW_MS
      [("203.0.113.7", ⟨2, 0⟩)] =
      (false, storeSet [("203.0.113.7", ⟨2, 0⟩)] "203.0.113.7" ⟨3, 0⟩) ∧
    isRateLimited "203.0.113.7" (RATE_LIMIT_WINDOW_MS + 5)
      [("203.0.113.7", ⟨3, 5⟩)] = (true, [("203.0.113.7", ⟨3, 5⟩)]) :=
  ⟨(window_boundary_amended "203.0.113.7" [("203.0.113.7", ⟨2, 0⟩)]
      RATE_LIMIT_WINDOW_MS ⟨2, 0⟩ (by decide) (by decide)).1 (by decide),
   (window_boundary_amended "203.0.113.7" [("203.0.113.7", ⟨3, 5⟩)]
      (RATE_LIMIT_WINDOW_MS + 5) ⟨3, 5⟩ (by decide) (by decide)).2 (by decide)⟩

/-- Claim C9: after any sequence of `isRateLimited` calls starting
from the empty store, every entry satisfies 1 ≤ count ≤
RATE_LIMIT_MAX; the count is reset to 1 with a fresh window start
whenever the elapsed time strictly exceeds the window length; the
count is incremented (admitting) only while strictly below the
maximum; and a rejected call leaves the store unchanged, so the
count is never incremented on rejection. -/
theorem rate_limit_store_invariant :
    (∀ reqs : List (String × Int), ∀ p ∈ runRequests reqs [],
      1 ≤ p.2.count ∧ p.2.count ≤ RATE_LIMIT_MAX) ∧
    (∀ (ip : String) (now : Int) (s : RLStore) (e : RLEntry),
      storeGet s ip = some e →
      now - e.firstRequest > RATE_LIMIT_WINDOW_MS →
      isRateLimited ip now s = (false, storeSet s ip ⟨1, now⟩)) ∧
    (∀ (ip : String) (now : Int) (s : RLStore) (e : RLEntry),
      storeGet s ip = some e →
      ¬ now - e.firstRequest > RATE_LIMIT_WINDOW_MS →
      e.count < RATE_LIMIT_MAX →
      isRateLimited ip now s =
        (false, storeSet s ip ⟨e.count + 1, e.firstRequest⟩)) ∧
    (∀ (ip : String) (now : Int) (s : RLStore),
      (isRateLimited ip now s).1 = true → (isRateLimited ip now s).2 = s) := by
  refine ⟨?_, isRateLimited_reset, isRateLimited_incr, ?_⟩
  · intro reqs
    exact runRequests_inv reqs [] (by intro p hp; cases hp)
  · intro ip now s hrej
    cases hg : storeGet s ip with
    | none =>
      rw [isRateLimited_fresh ip now s hg] at hrej
      cases hrej
    | some e =>
      by_cases hw : now - e.firstRequest > RATE_LIMIT_WINDOW_MS
      · rw [isRateLimited_reset ip now s e hg hw] at hrej
        cases hrej
      · by_cases hc : RATE_LIMIT_MAX ≤ e.count
        · rw [isRateLimited_reject ip now s e hg hw hc]
        · rw [isRateLimited_incr ip now s e hg hw (Nat.not_le.mp hc)] at hrej
          cases hrej

/-- Witness for C9: the bounds after one concrete request, a
concrete reset, a concrete increment, and a concrete rejection that
leaves the store unchanged. -/
theorem rate_limit_store_invariant_witness :
    (1 ≤ (("203.0.113.7", (⟨1, 0⟩ : RLEntry)).2).count ∧
      (("203.0.113.7", (⟨1, 0⟩ : RLEntry)).2).count ≤ RATE_LIMIT_MAX) ∧
    isRateLimited "203.0.113.7" 900001 [("203.0.113.7", ⟨3, 0⟩)] =
      (false, storeSet [("203.0.113.7", ⟨3, 0⟩)] "203.0.113.7" ⟨1, 900001⟩) ∧
    isRateLimited "203.0.113.7" 5 [("203.0.113.7", ⟨1, 0⟩)] =
      (false, storeSet [("203.0.113.7", ⟨1, 0⟩)] "203.0.113.7" ⟨2, 0⟩) ∧
    (isRateLimited "203.0.113.7" 5 [("203.0.113.7", ⟨3, 0⟩)]).2 =
      [("203.0.113.7", ⟨3, 0⟩)] :=
  ⟨rate_limit_store_invariant.1 [("203.0.113.7", 0)]
     ("203.0.113.7", ⟨1, 0⟩) (by decide),
   rate_limit_store_invariant.2.1 "203.0.113.7" 900001
     [("203.0.113.7", ⟨3, 0⟩)] ⟨3, 0⟩ (by decide) (by decide),
   rate_limit_store_invariant.2.2.1 "203.0.113.7" 5
     [("203.0.113.7", ⟨1, 0⟩)] ⟨1, 0⟩ (by decide) (by decide) (by decide),
   rate_limit_store_invariant.2.2.2 "203.0.113.7" 5
     [("203.0.113.7", ⟨3, 0⟩)] (by decide)⟩

/-- Claim C4: for submissions whose fields are each absent or a
string (the shape of a form body), `validateFormData` is valid with
an empty error mapping exactly when every field satisfies its
whitelist contract, and each field's key is present in the error
mapping exactly when that field violates its contract — so every
failing field is reported in the one pass. -/
theorem validateFormData_whitelist_iff (d : FormData)
    (hn : wellTypedField d.name) (he : wellTypedField d.email)
    (hp : wellTypedField d.phone) (hs : wellTypedField d.subject)
    (hm : wellTypedField d.message) :
    ((validateFormData d).valid = true ↔
      nameContract d.name ∧ emailContract d.email ∧ phoneContract d.phone ∧
      subjectContract d.subject ∧ messageContract d.message) ∧
    ((validateFormData d).valid = true ↔
      (validateFormData d).errors.isEmpty = true) ∧
    ((validateFormData d).errors.name.isSome = true ↔ ¬ nameContract d.name) ∧
    ((validateFormData d).errors.email.isSome = true ↔
      ¬ emailContract d.email) ∧
    ((validateFormData d).errors.phone.isSome = true ↔
      ¬ phoneContract d.phone) ∧
    ((validateFormData d).errors.subject.isSome = true ↔
      ¬ subjectContract d.subject) ∧
    ((validateFormData d).errors.message.isSome = true ↔
      ¬ messageContract d.message) := by
  have hN := fieldCheck_isSome_iff d.name nameTest "Invalid name" hn (by decide)
  have hE := fieldCheck_isSome_iff d.email emailTest "Invalid email" he
    (by decide)
  have hP := phoneFieldCheck_isSome_iff d.phone hp
  have hS := subjectFieldCheck_isSome_iff d.subject hs
  have hM := fieldCheck_isSome_iff d.message messageTest "Invalid message" hm
    (by decide)
  have c1 : (fieldCheck d.name nameTest "Invalid name").isNone = true ↔
      nameContract d.name := by
    rw [isNone_iff_not_isSome, hN, not_not, nameContract]
  have c2 : (fieldCheck d.email emailTest "Invalid email").isNone = true ↔
      emailContract d.email := by
    rw [isNone_iff_not_isSome, hE, not_not, emailContract]
  have c3 : (phoneFieldCheck d.phone).isNone = true ↔
      phoneContract d.phone := by
    rw [isNone_iff_not_isSome, hP, not_not]
  have c4 : (subjectFieldCheck d.subject).isNone = true ↔
      subjectContract d.subject := by
    rw [isNone_iff_not_isSome, hS, not_not]
  have c5 : (fieldCheck d.message messageTest "Invalid message").isNone =
      true ↔ messageContract d.message := by
    rw [isNone_iff_not_isSome, hM, not_not, messageContract]
  refine ⟨?_, Iff.rfl, hN, hE, hP, hS, hM⟩
  have hsplit : (validateFormData d).valid = true ↔
      ((fieldCheck d.name nameTest "Invalid name").isNone = true ∧
       (fieldCheck d.email emailTest "Invalid email").isNone = true ∧
       (phoneFieldCheck d.phone).isNone = true ∧
       (subjectFieldCheck d.subject).isNone = true ∧
       (fieldCheck d.message messageTest "Invalid message").isNone = true) := by
    show (_ && _ && _ && _ && _) = true ↔ _
    simp [Bool.and_eq_true, and_assoc]
  rw [hsplit, c1, c2, c3, c4, c5]

/-- Witness for C4 at the concrete genuine submission: its fields
are well typed, every contract holds, and the validator accepts. -/
theorem validateFormData_whitelist_iff_witness :
    wellTypedField genuineBody.name ∧
    (validateFormData genuineBody).valid = true :=
  ⟨Or.inr ⟨"Marco Rossi", rfl⟩,
   ((validateFormData_whitelist_iff genuineBody
      (Or.inr ⟨"Marco Rossi", rfl⟩) (Or.inr ⟨"marco@example.com", rfl⟩)
      (Or.inr ⟨"+39 06 1234567", rfl⟩) (Or.inr ⟨"info", rfl⟩)
      (Or.inr ⟨"I want information about cohousing.", rfl⟩)).1).mpr
     ⟨⟨"Marco Rossi", rfl, by decide⟩,
      ⟨"marco@example.com", rfl, by decide⟩,
      Or.inr ⟨"+39 06 1234567", rfl, Or.inr (by decide)⟩,
      ⟨"info", rfl, by decide⟩,
      ⟨"I want information about cohousing.", rfl, by decide⟩⟩⟩

/-- Claim C5: the sanitizer is idempotent — stripping an already
stripped string changes nothing. -/
theorem stripHTML_idempotent (s : String) :
    stripHTML (JSValue.str (stripHTML (JSValue.str s))) =
      stripHTML (JSValue.str s) := by
  show String.mk (stripTags (stripTags s.data)) = String.mk (stripTags s.data)
  rw [stripTags_idem]

/-- Claim C6: `stripHTML` is total — every non-string value yields
the empty string; on a string it computes exactly the
specification-side removal of every tag-shaped substring
(`stripSpec`, repeated deletion of the leftmost tag shape), and its
output is a sublist of the input, so the remaining text is kept
intact and in order. -/
theorem stripHTML_total_tag_removal :
    (∀ v : JSValue, v.isString = false → stripHTML v = "") ∧
    (∀ s : String, stripHTML (JSValue.str s) = String.mk (stripSpec s.data)) ∧
    (∀ s : String, (stripHTML (JSValue.str s)).data.Sublist s.data) := by
  refine ⟨?_, ?_, ?_⟩
  · intro v hv
    cases v with
    | str s => simp [JSValue.isString] at hv
    | undef => rfl
    | null => rfl
    | bool b => rfl
    | num n => rfl
    | arr => rfl
    | obj => rfl
  · intro s
    show String.mk (stripTags s.data) = String.mk (stripSpec s.data)
    rw [stripSpec_eq_stripTags]
  · intro s
    show (stripTags s.data).Sublist s.data
    exact stripTags_sublist s.data

/-- Witness for C6 at a number and at a concrete tagged string. -/
theorem stripHTML_total_tag_removal_witness :
    stripHTML (JSValue.num 7) = "" ∧
    stripHTML (JSValue.str "<b>hi</b>") =
      String.mk (stripSpec ("<b>hi</b>" : String).data) ∧
    (stripHTML (JSValue.str "<b>hi</b>")).data.Sublist
      ("<b>hi</b>" : String).data :=
  ⟨stripHTML_total_tag_removal.1 (JSValue.num 7) rfl,
   stripHTML_total_tag_removal.2.1 "<b>hi</b>",
   stripHTML_total_tag_removal.2.2 "<b>hi</b>"⟩

/-- Claim C7: client identity resolution always succeeds and follows
the priority order — the first entry of the forwarded-for chain when
the header is present with a nonempty first entry, otherwise the
direct connection address when available (present and nonempty),
otherwise the literal token `unknown`. -/
theorem resolveClientIp_policy (xff ip : Option String) :
    (∀ h, xff = some h → firstForwarded h ≠ "" →
      resolveClientIp xff ip = firstForwarded h) ∧
    ((xff = none ∨ ∃ h, xff = some h ∧ firstForwarded h = "") →
      resolveClientIp xff ip = directAddressOr ip) ∧
    (∀ i, ip = some i → i ≠ "" → directAddressOr ip = i) ∧
    ((ip = none ∨ ip = some "") → directAddressOr ip = "unknown") := by
  refine ⟨?_, ?_, ?_, ?_⟩
  · rintro h rfl hne
    simp [resolveClientIp, hne]
  · rintro (rfl | ⟨h, rfl, hemp⟩)
    · simp [resolveClientIp, directAddressOr]
    · simp [resolveClientIp, directAddressOr, hemp]
  · rintro i rfl hne
    simp [directAddressOr, hne]
  · rintro (rfl | rfl) <;> simp [directAddressOr]

/-- Witness for C7: a forwarded-for chain wins, absence of the
header falls back to the direct address, and absence of both yields
the literal token. -/
theorem resolveClientIp_policy_witness :
    resolveClientIp (some "198.51.100.4, 10.0.0.1") (some "10.0.0.9") =
      firstForwarded "198.51.100.4, 10.0.0.1" ∧
    resolveClientIp none (some "10.0.0.9") = directAddressOr (some "10.0.0.9") ∧
    directAddressOr (some "10.0.0.9") = "10.0.0.9" ∧
    directAddressOr (none : Option String) = "unknown" :=
  ⟨(resolveClientIp_policy (some "198.51.100.4, 10.0.0.1")
      (some "10.0.0.9")).1 "198.51.100.4, 10.0.0.1" rfl (by decide),
   (resolveClientIp_policy none (some "10.0.0.9")).2.1 (Or.inl rfl),
   (resolveClientIp_policy none (some "10.0.0.9")).2.2.1 "10.0.0.9" rfl
     (by decide),
   (resolveClientIp_policy none none).2.2.2 (Or.inl rfl)⟩

/-- Claim C8: failure of the notification collaborator never changes
the client-visible response or the stored record (the handler with a
failing mail send returns exactly the response of the handler with a
succeeding one), and whenever a submission was stored the client
still receives the 200 success response even though the notification
was attempted and not delivered. -/
theorem mail_failure_not_propagated (req : Request) (store0 : RLStore)
    (now : Int) (c : Bool) :
    (handler req store0 now c true).resp = (handler req store0 now c false).resp ∧
    (handler req store0 now c true).stored =
      (handler req store0 now c false).stored ∧
    ((handler req store0 now c true).stored.isSome = true →
      (handler req store0 now c true).resp.status = 200 ∧
      (handler req store0 now c true).resp.message =
        "Message received successfully." ∧
      (handler req store0 now c true).mailAttempted = true ∧
      (handler req store0 now c true).mailDelivered = false) := by
  simp only [handler]
  by_cases hrl : (isRateLimited (resolveClientIp req.xForwardedFor req.ip)
      now store0).1 = true
  · simp only [if_pos hrl]
    simp
  · simp only [if_neg hrl]
    by_cases hhp : (req.body.getD emptyForm).honeypot.truthy = true
    · simp only [if_pos hhp]
      simp
    · simp only [if_neg hhp]
      by_cases hval :
          (!(validateFormData (req.body.getD emptyForm)).valid) = true
      · simp only [if_pos hval]
        simp
      · simp only [if_neg hval]
        cases hsan : sanitizeE (req.body.getD emptyForm)
            (resolveClientIp req.xForwardedFor req.ip) with
        | error e =>
          simp only [hsan]
          simp
        | ok sd =>
          simp only [hsan]
          by_cases hc : c = true
          · simp only [if_pos hc]
            simp
          · simp only [if_neg hc]
            simp

/-- Witness for C8 at the concrete genuine request with a failing
mail collaborator: the submission is stored and the client still
receives the 200 success response. -/
theorem mail_failure_not_propagated_witness :
    (handler genuineReq [] 0 false true).stored.isSome = true ∧
    ((handler genuineReq [] 0 false true).resp.status = 200 ∧
     (handler genuineReq [] 0 false true).resp.message =
       "Message received successfully." ∧
     (handler genuineReq [] 0 false true).mailAttempted = true ∧
     (handler genuineReq [] 0 false true).mailDelivered = false) :=
  ⟨by decide,
   (mail_failure_not_propagated genuineReq [] 0 false).2.2 (by decide)⟩

/-- Claim C10: `validateFormData` is total over arbitrarily typed
field values — evaluated under explicit JavaScript exception
semantics it never throws, returning exactly the pure validation
result for every body. -/
theorem validateFormData_total (d : FormData) :
    validateFormDataE d = Except.ok (validateFormData d) := by
  rw [validateFormDataE, fieldCheckE_eq, fieldCheckE_eq, phoneFieldCheckE_eq,
    fieldCheckE_eq]
  rfl

end Lares
